import Mathlib

/-!
Verification of the tree-sitter-ls bridge components: the generic
deduplicating in-progress set, its auto-install wrapper, the virtual
document locator encoding, and the eager-open orchestration of
virtual documents on downstream servers.

State is passed explicitly: the concurrent set becomes a `Finset` with
atomic operations, concurrency becomes an arbitrary linearization of
those atomic operations, and the network side effects of the bridge
become an explicit event trace.
-/

namespace TreeSitterLs

/-!
### Deduplicating-Operation Set

Modelled from the spec: the generic `InProgressSet` is not among the
given source files (only its `auto_install.rs` wrapper is); per
section 4.1 of the spec, `try_start` atomically tests whether the key
is absent and, if so, inserts it and returns true, else returns false;
`finish` removes the key unconditionally.
-/

def try_start {α : Type} [DecidableEq α] (key : α) (s : Finset α) : Bool × Finset α :=
  if key ∈ s then (false, s) else (true, insert key s)

def finish {α : Type} [DecidableEq α] (key : α) (s : Finset α) : Finset α :=
  s.erase key

/-- From src/lsp/auto_install.rs: the `InstallingLanguages` state is an
`InProgressSet<String>`. -/
abbrev InstallingLanguages := Finset String

/-- From src/lsp/auto_install.rs, `InstallingLanguagesExt::try_start_install`:
delegates to `try_start` on the underlying set with the language string
as key (`self.try_start(&language.to_string())`). -/
def try_start_install (language : String) (s : InstallingLanguages) :
    Bool × InstallingLanguages :=
  try_start language s

/-- From src/lsp/auto_install.rs, `InstallingLanguagesExt::finish_install`:
delegates to `finish` on the underlying set
(`self.finish(&language.to_string())`). -/
def finish_install (language : String) (s : InstallingLanguages) :
    InstallingLanguages :=
  finish language s

/-- An atomic operation on the in-progress set, used to linearize
concurrent callers: each concurrent call is one atomic step, and any
interleaving of N calls is a sequence of these operations. -/
inductive SetOp where
  | tryStart (key : String)
  | finishKey (key : String)
deriving DecidableEq

/-- Run a linearized sequence of atomic set operations from a starting
state, collecting the boolean result of every `tryStart` in order. -/
def runOps : List SetOp → Finset String → Finset String × List Bool
  | [], s => (s, [])
  | SetOp.tryStart k :: rest, s =>
      let r := try_start k s
      let r2 := runOps rest r.2
      (r2.1, r.1 :: r2.2)
  | SetOp.finishKey k :: rest, s => runOps rest (finish k s)

theorem try_start_mem {α : Type} [DecidableEq α] (key : α) (s : Finset α)
    (h : key ∈ s) : try_start key s = (false, s) := by
  simp [try_start, h]

theorem try_start_not_mem {α : Type} [DecidableEq α] (key : α) (s : Finset α)
    (h : key ∉ s) : try_start key s = (true, insert key s) := by
  simp [try_start, h]

theorem runOps_tryStart_all_false (k : String) (s : Finset String) (m : Nat)
    (h : k ∈ s) :
    runOps (List.replicate m (SetOp.tryStart k)) s = (s, List.replicate m false) := by
  induction m with
  | zero => rfl
  | succ n ih =>
      simp only [List.replicate_succ, runOps, try_start_mem k s h]
      simp [ih]

/-- Claim C1: linearizing N concurrent `try_start k` calls (N at least 1)
from a state where `k` is not in progress, exactly one call returns true
and the rest return false, until a matching `finish k`; and after
`finish k` a subsequent `try_start k` returns true again. -/
theorem dedup_exactly_one_winner (k : String) (s : Finset String) (n : Nat)
    (hk : k ∉ s) (hn : 1 ≤ n) :
    ((runOps (List.replicate n (SetOp.tryStart k)) s).2.count true = 1)
    ∧ (try_start k (finish k (insert k s))).1 = true := by
  constructor
  · obtain ⟨m, rfl⟩ : ∃ m, n = m + 1 := ⟨n - 1, (Nat.succ_pred_eq_of_pos hn).symm⟩
    simp only [List.replicate_succ, runOps, try_start_not_mem k s hk]
    rw [runOps_tryStart_all_false k (insert k s) m (Finset.mem_insert_self k s)]
    simp [List.count_replicate]
  · have h2 : k ∉ finish k (insert k s) := Finset.not_mem_erase k _
    simp [try_start_not_mem k _ h2]

/-- Claim C1 witness: three concurrent `try_start "lua"` calls from the
empty state, exactly one returns true; after `finish`, a later
`try_start "lua"` returns true again. -/
theorem dedup_exactly_one_winner_witness :
    ((runOps (List.replicate 3 (SetOp.tryStart "lua")) ∅).2.count true = 1)
    ∧ (try_start "lua" (finish "lua" (insert "lua" ∅))).1 = true :=
  dedup_exactly_one_winner "lua" ∅ 3 (by decide) (by decide)

/-- Claim C7: the domain wrapper is extensionally equal to the generic
dedup set: `try_start_install` returns the same boolean and the same
resulting in-progress set as `try_start` on the underlying set, and
`finish_install` acts as `finish`. -/
theorem install_wrapper_extensional (language : String) (s : InstallingLanguages) :
    try_start_install language s = try_start language s
    ∧ finish_install language s = finish language s :=
  ⟨rfl, rfl⟩

/-- Claim C8: `finish k` on a key not currently in the set is a no-op
returning normally: the set is unchanged. -/
theorem finish_absent_noop (k : String) (s : Finset String) (hk : k ∉ s) :
    finish k s = s :=
  Finset.erase_eq_of_not_mem hk

/-- Claim C8 witness: `finish "lua"` on the empty set leaves it empty. -/
theorem finish_absent_noop_witness : finish "lua" (∅ : Finset String) = ∅ :=
  finish_absent_noop "lua" ∅ (by decide)

/-!
### Virtual Document Identity

Modelled from the spec: `VirtualDocumentUri` is not among the given
source files (only its call site in did_open.rs is); per sections 4.4
and 6 of the spec, the locator is a string embedding a reserved scheme
marker plus the host document locator, the language tag and the region
identifier, parseable back into its three components. Strings are
embedded as lists of characters; the language tag and region identifier
are delimiter-free (region identifiers are ULIDs in the tests), the
host locator is placed last so it may contain any character.
-/

/-- The reserved scheme marker distinguishing virtual locators from any
real filesystem locator. -/
def SCHEME : List Char :=
  ['k', 'a', 'k', 'e', 'h', 'a', 's', 'h', 'i', ':', '/', '/']

/-- Remove an expected marker from the front of a character list;
`none` when the list does not start with the marker. -/
def dropMarker : List Char → List Char → Option (List Char)
  | [], ys => some ys
  | _ :: _, [] => none
  | x :: xs, y :: ys => if x = y then dropMarker xs ys else none

/-- Split a character list at the first occurrence of a delimiter;
`none` when the delimiter does not occur. -/
def splitFirst (c : Char) : List Char → Option (List Char × List Char)
  | [] => none
  | x :: xs =>
      if x = c then some ([], xs)
      else
        match splitFirst c xs with
        | none => none
        | some p => some (x :: p.1, p.2)

/-- `VirtualDocumentUri::new`: build the locator string for a
(host locator, language, region identifier) triple. -/
def build (host_uri language region_id : List Char) : List Char :=
  SCHEME ++ language ++ '/' :: region_id ++ '/' :: host_uri

/-- Parse a locator string back into its (host locator, language,
region identifier) triple; `none` for strings not built by `build`. -/
def parse (locator : List Char) :
    Option (List Char × List Char × List Char) :=
  match dropMarker SCHEME locator with
  | none => none
  | some rest =>
    match splitFirst '/' rest with
    | none => none
    | some p =>
      match splitFirst '/' p.2 with
      | none => none
      | some q => some (q.2, p.1, q.1)

/-- A language tag or region identifier is valid when it is free of the
locator delimiter. -/
def validComponent (xs : List Char) : Prop := ('/' : Char) ∉ xs

instance (xs : List Char) : Decidable (validComponent xs) := by
  unfold validComponent
  infer_instance

theorem dropMarker_append (p xs : List Char) : dropMarker p (p ++ xs) = some xs := by
  induction p with
  | nil => rfl
  | cons a as ih => simpa [dropMarker] using ih

theorem splitFirst_append (c : Char) (a b : List Char) (h : c ∉ a) :
    splitFirst c (a ++ c :: b) = some (a, b) := by
  induction a with
  | nil => simp [splitFirst]
  | cons x xs ih =>
      rw [List.mem_cons, not_or] at h
      have hx : ¬ x = c := fun hxc => h.1 hxc.symm
      simp [splitFirst, hx, ih h.2]

theorem parse_build (h l r : List Char)
    (hl : validComponent l) (hr : validComponent r) :
    parse (build h l r) = some (h, l, r) := by
  unfold build parse
  have e0 : SCHEME ++ l ++ '/' :: r ++ '/' :: h
      = SCHEME ++ (l ++ '/' :: (r ++ '/' :: h)) := by
    simp
  rw [e0, dropMarker_append]
  simp only [splitFirst_append '/' l (r ++ '/' :: h) hl,
    splitFirst_append '/' r h hr]

/-- Claim C6: for valid components the locator round-trips,
`parse (build h l r) = some (h, l, r)`; two distinct region identifiers
with the same host and language give distinct locators; and the same
triple always gives the same locator. -/
theorem virtual_uri_roundtrip (h l r : List Char)
    (hl : validComponent l) (hr : validComponent r) :
    parse (build h l r) = some (h, l, r)
    ∧ (∀ r2, validComponent r2 → r ≠ r2 → build h l r ≠ build h l r2)
    ∧ build h l r = build h l r := by
  refine ⟨parse_build h l r hl hr, ?_, rfl⟩
  intro r2 hr2 hne heq
  have : some (h, l, r) = some (h, l, r2) := by
    rw [← parse_build h l r hl hr, ← parse_build h l r2 hl hr2, heq]
  exact hne (by simpa using this)

/-- Claim C6 witness: a concrete host, language and region identifier
round-trip through the locator encoding, and a different region
identifier yields a different locator. -/
theorem virtual_uri_roundtrip_witness :
    parse (build "file:a.md".data "lua".data "01A".data)
      = some ("file:a.md".data, "lua".data, "01A".data)
    ∧ build "file:a.md".data "lua".data "01A".data
      ≠ build "file:a.md".data "lua".data "01B".data := by
  have h := virtual_uri_roundtrip "file:a.md".data "lua".data "01A".data
    (by decide) (by decide)
  exact ⟨h.1, h.2.1 "01B".data (by decide) (by decide)⟩

/-!
### Document-Open Tracker and Eager-Open Bridge

The bridge function `eager_open_virtual_documents` is translated from
src/lsp/bridge/text_document/did_open.rs. Its two collaborators are
modelled: the pool's `get_or_create_connection_wait_ready` outcome is
an explicit `Except` argument (the pool itself is not among the given
source files), and the transport's acceptance of a didOpen send is a
boolean oracle on the locator. Network effects become an event trace.
-/

/-- Connection readiness errors, from section 7 of the spec. -/
inductive ConnError where
  | spawnFailed
  | handshakeFailed
  | timeout
deriving DecidableEq

/-- Document-synchronization send errors, from section 7 of the spec. -/
inductive SyncError where
  | sendFailed
deriving DecidableEq

/-- Observable effects of the bridge: the single pool readiness wait, the
attempt to ensure a region open, and an actually sent didOpen
notification carrying the virtual locator and the region content. -/
inductive Event where
  | waitReady (server_name : String)
  | ensureAttempt (locator : List Char)
  | didOpen (locator : List Char) (content : List Char)
deriving DecidableEq

/-- The Open-Document Set of one downstream connection: the virtual
locators currently believed open there. -/
abbrev OpenDocs := Finset (List Char)

/-- Modelled from the spec: `ensure_document_opened` is not among the
given source files (only its call site in did_open.rs is); per section
4.5 of the spec, an already-open locator returns success with no
network effect; otherwise a didOpen notification is sent and the
locator is inserted only on successful send; a failed send leaves the
set unchanged and propagates the error. -/
def ensure_document_opened (sendOk : List Char → Bool) (s : OpenDocs)
    (virtual_locator content : List Char) :
    OpenDocs × Except SyncError Unit × List Event :=
  if virtual_locator ∈ s then (s, Except.ok (), [])
  else if sendOk virtual_locator then
    (insert virtual_locator s, Except.ok (), [Event.didOpen virtual_locator content])
  else (s, Except.error SyncError.sendFailed, [])

/-- The locator built for one injection region, as in the loop body of
`eager_open_virtual_documents` (did_open.rs line 63). -/
def locOf (host_uri_lsp : List Char) (inj : List Char × List Char × List Char) :
    List Char :=
  build host_uri_lsp inj.1 inj.2.1

/-- The region loop of `eager_open_virtual_documents`
(did_open.rs lines 62 to 77): for each injection region in order, build
the virtual locator and call `ensure_document_opened`; a per-region
error is logged and the loop continues with the remaining regions. -/
def openRegions (sendOk : List Char → Bool) (host_uri_lsp : List Char) :
    List (List Char × List Char × List Char) → OpenDocs → OpenDocs × List Event
  | [], s => ( s, [])
  | (language, region_id, content) :: rest, s =>
      let vuri := build host_uri_lsp language region_id
      let r := ensure_document_opened sendOk s vuri content
      let r2 := openRegions sendOk host_uri_lsp rest r.1
      (r2.1, Event.ensureAttempt vuri :: r.2.2 ++ r2.2)

/-- `eager_open_virtual_documents` (did_open.rs lines 30 to 78): wait
for the server through the pool; on any readiness error return at once,
attempting no region; on success run the region loop. The function
always returns normally, surfacing no error to its caller. -/
def eager_open_virtual_documents (pool_result : Except ConnError Unit)
    (sendOk : List Char → Bool) (server_name : String) (host_uri_lsp : List Char)
    (injections : List (List Char × List Char × List Char))
    (s : OpenDocs) : OpenDocs × List Event :=
  match pool_result with
  | Except.error _ => ( s, [Event.waitReady server_name])
  | Except.ok _ =>
      let r := openRegions sendOk host_uri_lsp injections s
      (r.1, Event.waitReady server_name :: r.2)

/-- The locators of ensure-open attempts in a trace, in order. -/
def attemptsOf (events : List Event) : List (List Char) :=
  events.filterMap fun e =>
    match e with
    | Event.ensureAttempt loc => some loc
    | _ => none

/-- The locators of didOpen notifications in a trace, in order. -/
def didOpensOf (events : List Event) : List (List Char) :=
  events.filterMap fun e =>
    match e with
    | Event.didOpen loc _ => some loc
    | _ => none

/-- The number of pool readiness waits in a trace. -/
def waitCount (events : List Event) : Nat :=
  (events.filterMap fun e =>
    match e with
    | Event.waitReady name => some name
    | _ => none).length

theorem ensure_already_open (sendOk : List Char → Bool) (s : OpenDocs)
    (vloc content : List Char) (hm : vloc ∈ s) :
    ensure_document_opened sendOk s vloc content = (s, Except.ok (), []) := by
  simp [ensure_document_opened, hm]

theorem ensure_send_success (sendOk : List Char → Bool) (s : OpenDocs)
    (vloc content : List Char) (hm : vloc ∉ s) (hs : sendOk vloc = true) :
    ensure_document_opened sendOk s vloc content
      = (insert vloc s, Except.ok (), [Event.didOpen vloc content]) := by
  simp [ensure_document_opened, hm, hs]

theorem ensure_send_failure (sendOk : List Char → Bool) (s : OpenDocs)
    (vloc content : List Char) (hm : vloc ∉ s) (hs : sendOk vloc = false) :
    ensure_document_opened sendOk s vloc content
      = (s, Except.error SyncError.sendFailed, []) := by
  simp [ensure_document_opened, hm, hs]

theorem attemptsOf_nil : attemptsOf [] = [] := rfl

theorem attemptsOf_wait (n : String) (evs : List Event) :
    attemptsOf (Event.waitReady n :: evs) = attemptsOf evs := rfl

theorem attemptsOf_attempt (l : List Char) (evs : List Event) :
    attemptsOf (Event.ensureAttempt l :: evs) = l :: attemptsOf evs := rfl

theorem attemptsOf_open (l c : List Char) (evs : List Event) :
    attemptsOf (Event.didOpen l c :: evs) = attemptsOf evs := rfl

theorem didOpensOf_nil : didOpensOf [] = [] := rfl

theorem didOpensOf_wait (n : String) (evs : List Event) :
    didOpensOf (Event.waitReady n :: evs) = didOpensOf evs := rfl

theorem didOpensOf_attempt (l : List Char) (evs : List Event) :
    didOpensOf (Event.ensureAttempt l :: evs) = didOpensOf evs := rfl

theorem didOpensOf_open (l c : List Char) (evs : List Event) :
    didOpensOf (Event.didOpen l c :: evs) = l :: didOpensOf evs := rfl

theorem waitCount_nil : waitCount [] = 0 := rfl

theorem waitCount_wait (n : String) (evs : List Event) :
    waitCount (Event.waitReady n :: evs) = waitCount evs + 1 := by
  simp [waitCount]

theorem waitCount_attempt (l : List Char) (evs : List Event) :
    waitCount (Event.ensureAttempt l :: evs) = waitCount evs := rfl

theorem waitCount_open (l c : List Char) (evs : List Event) :
    waitCount (Event.didOpen l c :: evs) = waitCount evs := rfl

theorem openRegions_cons_already_open (sendOk : List Char → Bool)
    (h language region_id content : List Char)
    (rest : List (List Char × List Char × List Char)) (s : OpenDocs)
    (hm : build h language region_id ∈ s) :
    openRegions sendOk h ((language, region_id, content) :: rest) s
      = ((openRegions sendOk h rest s).1,
         Event.ensureAttempt (build h language region_id)
           :: (openRegions sendOk h rest s).2) := by
  simp [openRegions, ensure_already_open sendOk s _ content hm]

theorem openRegions_cons_send_success (sendOk : List Char → Bool)
    (h language region_id content : List Char)
    (rest : List (List Char × List Char × List Char)) (s : OpenDocs)
    (hm : build h language region_id ∉ s)
    (hs : sendOk (build h language region_id) = true) :
    openRegions sendOk h ((language, region_id, content) :: rest) s
      = ((openRegions sendOk h rest (insert (build h language region_id) s)).1,
         Event.ensureAttempt (build h language region_id)
           :: Event.didOpen (build h language region_id) content
           :: (openRegions sendOk h rest (insert (build h language region_id) s)).2) := by
  simp [openRegions, ensure_send_success sendOk s _ content hm hs]

theorem openRegions_cons_send_failure (sendOk : List Char → Bool)
    (h language region_id content : List Char)
    (rest : List (List Char × List Char × List Char)) (s : OpenDocs)
    (hm : build h language region_id ∉ s)
    (hs : sendOk (build h language region_id) = false) :
    openRegions sendOk h ((language, region_id, content) :: rest) s
      = ((openRegions sendOk h rest s).1,
         Event.ensureAttempt (build h language region_id)
           :: (openRegions sendOk h rest s).2) := by
  simp [openRegions, ensure_send_failure sendOk s _ content hm hs]

theorem openRegions_attempts (sendOk : List Char → Bool) (h : List Char)
    (injs : List (List Char × List Char × List Char)) :
    ∀ s : OpenDocs,
      attemptsOf (openRegions sendOk h injs s).2 = injs.map (locOf h) := by
  induction injs with
  | nil => intro s; rfl
  | cons inj rest ih =>
      intro s
      obtain ⟨language, region_id, content⟩ := inj
      by_cases hm : build h language region_id ∈ s
      · rw [openRegions_cons_already_open sendOk h language region_id content rest s hm]
        simp [attemptsOf_attempt, ih s, locOf]
      · cases hs : sendOk (build h language region_id) with
        | true =>
            rw [openRegions_cons_send_success sendOk h language region_id content rest s hm hs]
            simp [attemptsOf_attempt, attemptsOf_open, ih _, locOf]
        | false =>
            rw [openRegions_cons_send_failure sendOk h language region_id content rest s hm hs]
            simp [attemptsOf_attempt, ih s, locOf]

theorem openRegions_no_wait (sendOk : List Char → Bool) (h : List Char)
    (injs : List (List Char × List Char × List Char)) :
    ∀ s : OpenDocs, waitCount (openRegions sendOk h injs s).2 = 0 := by
  induction injs with
  | nil => intro s; rfl
  | cons inj rest ih =>
      intro s
      obtain ⟨language, region_id, content⟩ := inj
      by_cases hm : build h language region_id ∈ s
      · rw [openRegions_cons_already_open sendOk h language region_id content rest s hm]
        simp [waitCount_attempt, ih s]
      · cases hs : sendOk (build h language region_id) with
        | true =>
            rw [openRegions_cons_send_success sendOk h language region_id content rest s hm hs]
            simp [waitCount_attempt, waitCount_open, ih _]
        | false =>
            rw [openRegions_cons_send_failure sendOk h language region_id content rest s hm hs]
            simp [waitCount_attempt, ih s]

theorem openRegions_mem (sendOk : List Char → Bool) (h : List Char)
    (injs : List (List Char × List Char × List Char)) :
    ∀ (s : OpenDocs) (loc : List Char),
      loc ∈ (openRegions sendOk h injs s).1
        ↔ loc ∈ s ∨ (loc ∈ injs.map (locOf h) ∧ sendOk loc = true) := by
  induction injs with
  | nil => intro s loc; simp [openRegions]
  | cons inj rest ih =>
      intro s loc
      obtain ⟨language, region_id, content⟩ := inj
      simp only [List.map_cons, List.mem_cons, locOf]
      by_cases hm : build h language region_id ∈ s
      · rw [openRegions_cons_already_open sendOk h language region_id content rest s hm]
        rw [show ((openRegions sendOk h rest s).1,
              Event.ensureAttempt (build h language region_id)
                :: (openRegions sendOk h rest s).2).1
            = (openRegions sendOk h rest s).1 from rfl]
        rw [ih s loc]
        constructor
        · rintro (hmem | ⟨hr, hsend⟩)
          · exact Or.inl hmem
          · exact Or.inr ⟨Or.inr hr, hsend⟩
        · rintro (hmem | ⟨heq | hr, hsend⟩)
          · exact Or.inl hmem
          · exact Or.inl (heq ▸ hm)
          · exact Or.inr ⟨hr, hsend⟩
      · cases hs : sendOk (build h language region_id) with
        | true =>
            rw [openRegions_cons_send_success sendOk h language region_id content rest s hm hs]
            rw [show ((openRegions sendOk h rest (insert (build h language region_id) s)).1,
                  Event.ensureAttempt (build h language region_id)
                    :: Event.didOpen (build h language region_id) content
                    :: (openRegions sendOk h rest (insert (build h language region_id) s)).2).1
                = (openRegions sendOk h rest (insert (build h language region_id) s)).1 from rfl]
            rw [ih _ loc]
            simp only [Finset.mem_insert]
            constructor
            · rintro ((heq | hmem) | ⟨hr, hsend⟩)
              · exact Or.inr ⟨Or.inl heq, heq ▸ hs⟩
              · exact Or.inl hmem
              · exact Or.inr ⟨Or.inr hr, hsend⟩
            · rintro (hmem | ⟨heq | hr, hsend⟩)
              · exact Or.inl (Or.inr hmem)
              · exact Or.inl (Or.inl heq)
              · exact Or.inr ⟨hr, hsend⟩
        | false =>
            rw [openRegions_cons_send_failure sendOk h language region_id content rest s hm hs]
            rw [show ((openRegions sendOk h rest s).1,
                  Event.ensureAttempt (build h language region_id)
                    :: (openRegions sendOk h rest s).2).1
                = (openRegions sendOk h rest s).1 from rfl]
            rw [ih s loc]
            constructor
            · rintro (hmem | ⟨hr, hsend⟩)
              · exact Or.inl hmem
              · exact Or.inr ⟨Or.inr hr, hsend⟩
            · rintro (hmem | ⟨heq | hr, hsend⟩)
              · exact Or.inl hmem
              · exact absurd hsend (by rw [heq, hs]; exact Bool.false_ne_true)
              · exact Or.inr ⟨hr, hsend⟩

theorem openRegions_all_open (sendOk : List Char → Bool) (h : List Char)
    (injs : List (List Char × List Char × List Char)) :
    ∀ s : OpenDocs, (∀ inj ∈ injs, locOf h inj ∈ s) →
      (openRegions sendOk h injs s).1 = s
      ∧ didOpensOf (openRegions sendOk h injs s).2 = [] := by
  induction injs with
  | nil => intro s _; exact ⟨rfl, rfl⟩
  | cons inj rest ih =>
      intro s hall
      obtain ⟨language, region_id, content⟩ := inj
      have hm : build h language region_id ∈ s := hall _ (List.mem_cons_self _ _)
      rw [openRegions_cons_already_open sendOk h language region_id content rest s hm]
      have hrest := ih s fun inj hmem => hall inj (List.mem_cons_of_mem _ hmem)
      exact ⟨hrest.1, by simp [didOpensOf_attempt, hrest.2]⟩

/-- Claim C5: `ensure_document_opened` returns success at once with no
notification when the locator is already in the Open-Document Set;
otherwise it sends a didOpen and inserts the locator only on successful
send; on a failed send the set is unchanged and the error is returned. -/
theorem ensure_document_opened_contract (sendOk : List Char → Bool)
    (s : OpenDocs) (vloc content : List Char) :
    (vloc ∈ s →
      ensure_document_opened sendOk s vloc content = (s, Except.ok (), []))
    ∧ (vloc ∉ s → sendOk vloc = true →
      ensure_document_opened sendOk s vloc content
        = (insert vloc s, Except.ok (), [Event.didOpen vloc content]))
    ∧ (vloc ∉ s → sendOk vloc = false →
      ensure_document_opened sendOk s vloc content
        = (s, Except.error SyncError.sendFailed, [])) :=
  ⟨fun hm => ensure_already_open sendOk s vloc content hm,
   fun hm hs => ensure_send_success sendOk s vloc content hm hs,
   fun hm hs => ensure_send_failure sendOk s vloc content hm hs⟩

/-- Claim C5 witness: on an already-open locator the call is a silent
success, and on a failed send the set stays empty and the error comes
back. -/
theorem ensure_document_opened_contract_witness :
    ensure_document_opened (fun _ => true) (insert "v".data ∅) "v".data "x".data
      = (insert "v".data ∅, Except.ok (), [])
    ∧ ensure_document_opened (fun _ => false) (∅ : OpenDocs) "v".data "x".data
      = (∅, Except.error SyncError.sendFailed, []) :=
  ⟨(ensure_document_opened_contract (fun _ => true)
      (insert "v".data ∅) "v".data "x".data).1 (by decide),
   (ensure_document_opened_contract (fun _ => false)
      (∅ : OpenDocs) "v".data "x".data).2.2 (by decide) rfl⟩

/-- Claim C2: when the pool's get-or-create-wait-ready call errors
(spawn failure, handshake failure or timeout), `eager_open_virtual_documents`
attempts no region, changes no Open-Document Set, sends no didOpen, and
returns normally — its codomain carries no error, so no error reaches
its caller on any input. -/
theorem eager_open_pool_error_swallowed (e : ConnError)
    (sendOk : List Char → Bool) (server_name : String) (host_uri_lsp : List Char)
    (injections : List (List Char × List Char × List Char)) (s : OpenDocs) :
    eager_open_virtual_documents (Except.error e) sendOk server_name
        host_uri_lsp injections s
      = (s, [Event.waitReady server_name])
    ∧ attemptsOf (eager_open_virtual_documents (Except.error e) sendOk server_name
        host_uri_lsp injections s).2 = []
    ∧ didOpensOf (eager_open_virtual_documents (Except.error e) sendOk server_name
        host_uri_lsp injections s).2 = [] :=
  ⟨rfl, rfl, rfl⟩

/-- Claim C9: even with an empty injections list,
`eager_open_virtual_documents` still performs exactly one pool
readiness wait, then opens no documents and leaves the Open-Document
Set unchanged, whatever the pool call's outcome. -/
theorem eager_open_empty_still_waits (pool_result : Except ConnError Unit)
    (sendOk : List Char → Bool) (server_name : String)
    (host_uri_lsp : List Char) (s : OpenDocs) :
    waitCount (eager_open_virtual_documents pool_result sendOk server_name
        host_uri_lsp [] s).2 = 1
    ∧ eager_open_virtual_documents pool_result sendOk server_name
        host_uri_lsp [] s
      = (s, [Event.waitReady server_name]) := by
  cases pool_result with
  | error e => exact ⟨rfl, rfl⟩
  | ok u => exact ⟨rfl, rfl⟩

/-- Claim C10: one `eager_open_virtual_documents` call performs exactly
one pool readiness wait regardless of the number of injection regions,
and on a ready connection the ensure-open attempts occur exactly in the
order of the injections list. -/
theorem eager_open_single_wait_ordered_attempts
    (pool_result : Except ConnError Unit) (sendOk : List Char → Bool)
    (server_name : String) (host_uri_lsp : List Char)
    (injections : List (List Char × List Char × List Char)) (s : OpenDocs) :
    waitCount (eager_open_virtual_documents pool_result sendOk server_name
        host_uri_lsp injections s).2 = 1
    ∧ attemptsOf (eager_open_virtual_documents (Except.ok ()) sendOk server_name
        host_uri_lsp injections s).2 = injections.map (locOf host_uri_lsp) := by
  constructor
  · cases pool_result with
    | error e => rfl
    | ok u =>
        show waitCount (Event.waitReady server_name
          :: (openRegions sendOk host_uri_lsp injections s).2) = 1
        rw [waitCount_wait, openRegions_no_wait sendOk host_uri_lsp injections s]
  · show attemptsOf (Event.waitReady server_name
        :: (openRegions sendOk host_uri_lsp injections s).2)
      = injections.map (locOf host_uri_lsp)
    rw [attemptsOf_wait, openRegions_attempts sendOk host_uri_lsp injections s]

/-- Claim C3: on a ready connection, a send failure for one region does
not abort `eager_open_virtual_documents`: every region in the list is
still attempted, a region whose send succeeds is marked open, and a
region whose send fails is in the final Open-Document Set only if it
already was before the call. -/
theorem eager_open_partial_failure_isolation (sendOk : List Char → Bool)
    (server_name : String) (host_uri_lsp : List Char)
    (injections : List (List Char × List Char × List Char)) (s : OpenDocs) :
    attemptsOf (eager_open_virtual_documents (Except.ok ()) sendOk server_name
        host_uri_lsp injections s).2 = injections.map (locOf host_uri_lsp)
    ∧ ∀ inj, inj ∈ injections →
        (sendOk (locOf host_uri_lsp inj) = true →
          locOf host_uri_lsp inj ∈ (eager_open_virtual_documents (Except.ok ())
            sendOk server_name host_uri_lsp injections s).1)
        ∧ (sendOk (locOf host_uri_lsp inj) = false →
          (locOf host_uri_lsp inj ∈ (eager_open_virtual_documents (Except.ok ())
              sendOk server_name host_uri_lsp injections s).1
            ↔ locOf host_uri_lsp inj ∈ s)) := by
  have hfst : (eager_open_virtual_documents (Except.ok ()) sendOk server_name
      host_uri_lsp injections s).1 = (openRegions sendOk host_uri_lsp injections s).1 := rfl
  constructor
  · show attemptsOf (Event.waitReady server_name
        :: (openRegions sendOk host_uri_lsp injections s).2)
      = injections.map (locOf host_uri_lsp)
    rw [attemptsOf_wait, openRegions_attempts sendOk host_uri_lsp injections s]
  · intro inj hmem
    constructor
    · intro hsend
      rw [hfst, openRegions_mem sendOk host_uri_lsp injections s (locOf host_uri_lsp inj)]
      exact Or.inr ⟨List.mem_map_of_mem _ hmem, hsend⟩
    · intro hsend
      rw [hfst, openRegions_mem sendOk host_uri_lsp injections s (locOf host_uri_lsp inj)]
      constructor
      · rintro (hmem2 | ⟨_, htrue⟩)
        · exact hmem2
        · rw [hsend] at htrue
          exact absurd htrue Bool.false_ne_true
      · exact fun hmem2 => Or.inl hmem2

/-- Claim C3 witness: three concrete regions where the send for the
second one fails — the first and third are marked open, the second is
not, and all three were attempted. -/
theorem eager_open_partial_failure_isolation_witness :
    locOf "f".data ("a".data, "1".data, "x".data)
      ∈ (eager_open_virtual_documents (Except.ok ())
          (fun loc => decide (loc ≠ build "f".data "b".data "2".data)) "srv" "f".data
          [("a".data, "1".data, "x".data), ("b".data, "2".data, "y".data),
           ("c".data, "3".data, "z".data)] ∅).1
    ∧ locOf "f".data ("b".data, "2".data, "y".data)
      ∉ (eager_open_virtual_documents (Except.ok ())
          (fun loc => decide (loc ≠ build "f".data "b".data "2".data)) "srv" "f".data
          [("a".data, "1".data, "x".data), ("b".data, "2".data, "y".data),
           ("c".data, "3".data, "z".data)] ∅).1
    ∧ locOf "f".data ("c".data, "3".data, "z".data)
      ∈ (eager_open_virtual_documents (Except.ok ())
          (fun loc => decide (loc ≠ build "f".data "b".data "2".data)) "srv" "f".data
          [("a".data, "1".data, "x".data), ("b".data, "2".data, "y".data),
           ("c".data, "3".data, "z".data)] ∅).1 := by
  have h := eager_open_partial_failure_isolation
    (fun loc => decide (loc ≠ build "f".data "b".data "2".data)) "srv" "f".data
    [("a".data, "1".data, "x".data), ("b".data, "2".data, "y".data),
     ("c".data, "3".data, "z".data)] ∅
  refine ⟨?_, ?_, ?_⟩
  · exact (h.2 ("a".data, "1".data, "x".data) (by decide)).1 (by decide)
  · intro hmem
    have hiff := (h.2 ("b".data, "2".data, "y".data) (by decide)).2 (by decide)
    exact absurd (hiff.1 hmem) (by decide)
  · exact (h.2 ("c".data, "3".data, "z".data) (by decide)).1 (by decide)

/-- Claim C4: with all sends succeeding, running
`eager_open_virtual_documents` a second time with the identical
injection list leaves the Open-Document Set exactly as after the first
run, and the second run sends no didOpen notification at all. -/
theorem eager_open_idempotent (server_name : String) (host_uri_lsp : List Char)
    (injections : List (List Char × List Char × List Char)) (s : OpenDocs) :
    (eager_open_virtual_documents (Except.ok ()) (fun _ => true) server_name
        host_uri_lsp injections
        (eager_open_virtual_documents (Except.ok ()) (fun _ => true) server_name
          host_uri_lsp injections s).1).1
      = (eager_open_virtual_documents (Except.ok ()) (fun _ => true) server_name
          host_uri_lsp injections s).1
    ∧ didOpensOf (eager_open_virtual_documents (Except.ok ()) (fun _ => true)
        server_name host_uri_lsp injections
        (eager_open_virtual_documents (Except.ok ()) (fun _ => true) server_name
          host_uri_lsp injections s).1).2
      = [] := by
  have hall : ∀ inj ∈ injections,
      locOf host_uri_lsp inj ∈ (openRegions (fun _ => true) host_uri_lsp injections s).1 := by
    intro inj hmem
    rw [openRegions_mem (fun _ => true) host_uri_lsp injections s (locOf host_uri_lsp inj)]
    exact Or.inr ⟨List.mem_map_of_mem _ hmem, rfl⟩
  have h2 := openRegions_all_open (fun _ => true) host_uri_lsp injections
    (openRegions (fun _ => true) host_uri_lsp injections s).1 hall
  constructor
  · show (openRegions (fun _ => true) host_uri_lsp injections
        (openRegions (fun _ => true) host_uri_lsp injections s).1).1
      = (openRegions (fun _ => true) host_uri_lsp injections s).1
    exact h2.1
  · show didOpensOf (Event.waitReady server_name
        :: (openRegions (fun _ => true) host_uri_lsp injections
            (openRegions (fun _ => true) host_uri_lsp injections s).1).2)
      = []
    rw [didOpensOf_wait]
    exact h2.2

end TreeSitterLs
